import Mathlib

/-!
Verification development for the PSLGang mass-spectrometry pipeline.

The development shallowly embeds the pipeline's two numeric/structural cores:

* `Pipeline/Graph.py` — the Kendrick-mass-defect (KMD) calculator and the
  noise-band estimator `plot_data`.  Python floats are modelled as exact
  rationals (`ℚ`); the only transcendental steps (`np.log` / `np.exp` in the
  final geometric mean) are modelled over `ℝ` in a separate, clearly marked
  wrapper so that everything up to them stays executable.
* `Pipeline/Parser.py` — the mzML extractor `parse_mzml_full_spectra` and the
  binary decoder `decode_binary_array`.  XML documents are modelled as a
  mutually inductive element/forest tree; byte strings are `List ℕ` with every
  byte `< 256`; IEEE-754 float values are modelled by their little-endian byte
  encodings (equality of encodings is bit-for-bit equality of floats).
* `TranslatedRscript.py` — the `KMD` column computed by `kmd_noise`.

External library functions are modelled as follows: `base64.b64encode` /
`b64decode` are implemented concretely (non-strict mode: characters outside the
alphabet, including padding, are discarded; a leftover of one data character is
an error — this agrees with Python on canonically padded input and on the
malformed inputs used here); `zlib.decompress` is an explicit function
parameter, since only its round-trip property with a compressor matters.
-/

namespace Graph

/-- Exact mass of the CH2 repeat unit (`CH2_EXACT_MASS = 14.01565`). -/
def CH2_EXACT_MASS : ℚ := 14.01565

/-- Nominal mass of the CH2 repeat unit (`CH2_NOMINAL_MASS = 14.0`). -/
def CH2_NOMINAL_MASS : ℚ := 14.0

/-- Python's built-in `round` (also `np.round`): round half to even.
`round(q)` returns the nearest integer; exact halves go to the even
neighbour. -/
def pythonRound (q : ℚ) : ℤ :=
  if q - ⌊q⌋ < 1/2 then ⌊q⌋
  else if 1/2 < q - ⌊q⌋ then ⌊q⌋ + 1
  else if ⌊q⌋ % 2 = 0 then ⌊q⌋ else ⌊q⌋ + 1

/-- `kendrick_mass(mz) = mz * (repeat_nominal / repeat_exact)`; the repository
only ever calls it with the default CH2 constants. -/
def kendrick_mass (mz : ℚ) : ℚ := mz * (CH2_NOMINAL_MASS / CH2_EXACT_MASS)

/-- `kmd_fractional(mz) = km - math.floor(km)` where `km = kendrick_mass(mz)`. -/
def kmd_fractional (mz : ℚ) : ℚ :=
  kendrick_mass mz - ⌊kendrick_mass mz⌋

/-- `kmd_round(mz) = round(km) - km` where `km = kendrick_mass(mz)`. -/
def kmd_round (mz : ℚ) : ℚ :=
  (pythonRound (kendrick_mass mz) : ℚ) - kendrick_mass mz

/-- `safe_float`: `None` maps to `None`; a numeric value parses to itself.
The string-with-thousands-separator retry of the source is not exercised by
the records modelled here, which carry numeric values directly. -/
def safe_float : Option ℚ → Option ℚ := fun v => v

/-- Python call semantics of `kendrick_mass` on an optional argument:
`None * float` raises `TypeError`; the function body has no `None` guard. -/
def kendrick_mass_pycall : Option ℚ → Except String ℚ
  | none => .error "TypeError: unsupported operand type(s) for *: NoneType and float"
  | some mz => .ok (kendrick_mass mz)

/-- Python call semantics of `kmd_fractional` on an optional argument: the
first statement `km = kendrick_mass(mz)` raises on `None`. -/
def kmd_fractional_pycall (v : Option ℚ) : Except String ℚ :=
  (kendrick_mass_pycall v).map fun km => km - ⌊km⌋

/-- Python call semantics of `kmd_round` on an optional argument: the first
statement `km = kendrick_mass(mz)` raises on `None`. -/
def kmd_round_pycall (v : Option ℚ) : Except String ℚ :=
  (kendrick_mass_pycall v).map fun km => (pythonRound km : ℚ) - km

/-- A spectrum record as consumed by `Graph.py` (parsed JSON dict).  Numeric
string fields are modelled as already-parsed rationals; the derived Kendrick
fields are empty until `augment_and_compute` fills them. -/
structure GRecord where
  id : Option String := none
  ms_level : Option String := none
  base_peak_mz : Option ℚ := none
  base_peak_intensity : Option ℚ := none
  m_z_array : Option (List ℚ) := none
  intensity_array : Option (List ℚ) := none
  kendrick_mz : List ℚ := []
  kendrick_fraction : List ℚ := []
  kendrick_round : List ℚ := []
deriving DecidableEq

/-- Python truthiness of an optional list (`if mz_array and intensity_array`):
`None` and the empty list are falsy. -/
def optListTruthy : Option (List ℚ) → Bool
  | none => false
  | some l => !l.isEmpty

/-- Python truthiness of an optional float (`if mz`): `None` and `0.0` are
falsy. -/
def optRatTruthy : Option ℚ → Bool
  | none => false
  | some q => decide (q ≠ 0)

/-- `augment_and_compute`: keep MS1 records, then fill the Kendrick fields
from the full arrays when both are truthy, else from the base peak guarded by
`if mz` (so a missing or zero base peak yields empty lists). -/
def augment_and_compute (data : List GRecord) : List GRecord :=
  (data.filter fun rec => rec.ms_level == some "1").map fun rec =>
    if optListTruthy rec.m_z_array && optListTruthy rec.intensity_array then
      let mzs := rec.m_z_array.getD []
      { rec with kendrick_mz := mzs.map kendrick_mass,
                 kendrick_fraction := mzs.map kmd_fractional,
                 kendrick_round := mzs.map kmd_round }
    else
      match safe_float rec.base_peak_mz with
      | some mz =>
        if mz ≠ 0 then
          { rec with kendrick_mz := [kendrick_mass mz],
                     kendrick_fraction := [kmd_fractional mz],
                     kendrick_round := [kmd_round mz] }
        else
          { rec with kendrick_mz := [], kendrick_fraction := [], kendrick_round := [] }
      | none =>
        { rec with kendrick_mz := [], kendrick_fraction := [], kendrick_round := [] }

end Graph

namespace TranslatedRscript

/-- `kmd_noise` column `KM = mass * (14.0 / 14.01565)`. -/
def KM (mass : ℚ) : ℚ := mass * (14.0 / 14.01565)

/-- `kmd_noise` column `NM = np.round(mass)` (round half to even). -/
def NM (mass : ℚ) : ℤ := Graph.pythonRound mass

/-- `kmd_noise` column `KMD = NM - KM`. -/
def KMD (mass : ℚ) : ℚ := (NM mass : ℚ) - KM mass

end TranslatedRscript

/-- Split a list into contiguous chunks of `w` elements (the last chunk may be
shorter): models both `range(0, len, w)` slicing in `plot_data` and
`np.frombuffer`'s fixed-width reinterpretation.  The inner counter is the
remaining capacity of the current chunk; `w = 0` never occurs at call sites. -/
def chunksGo (w : ℕ) : ℕ → List α → List α → List (List α)
  | _, acc, [] => if acc.isEmpty then [] else [acc.reverse]
  | 0, _, _ :: _ => []
  | k+1, acc, a :: rest =>
      if k = 0 then (a :: acc).reverse :: chunksGo w w [] rest
      else chunksGo w k (a :: acc) rest

/-- Contiguous chunks of width `w` (last may be shorter). -/
def chunksOf (w : ℕ) (l : List α) : List (List α) := chunksGo w w [] l

namespace Graph

/-- The fixed diagonal tilt of the band (`slope = 0.0011232`). -/
def slope : ℚ := 0.0011232

/-- Flattening loop of `plot_data` (lines 93-104): pool m/z, the chosen KMD
variant, and intensities across all records whose two arrays are truthy. -/
def flattenXYC (data : List GRecord) (method : String) :
    List ℚ × List ℚ × List ℚ :=
  data.foldl
    (fun acc rec =>
      if optListTruthy rec.m_z_array && optListTruthy rec.intensity_array then
        (acc.1 ++ rec.m_z_array.getD [],
         acc.2.1 ++ (if method = "fractional" then rec.kendrick_fraction
                     else rec.kendrick_round),
         acc.2.2 ++ rec.intensity_array.getD [])
      else acc)
    ([], [], [])

/-- `np.min` on a pooled list (only applied to nonempty lists in the source). -/
def qmin : List ℚ → ℚ
  | [] => 0
  | h :: t => t.foldl min h

/-- `np.max` on a pooled list (only applied to nonempty lists in the source). -/
def qmax : List ℚ → ℚ
  | [] => 0
  | h :: t => t.foldl max h

/-- `np.mean`. -/
def qmean (l : List ℚ) : ℚ := l.sum / l.length

/-- Insertion step of the sort modelling `np.argsort(x)` applied to the
`(x, y)` pairs; ties keep their original relative order (`np.argsort` leaves
tie order unspecified; the claims proved here use inputs with distinct `x`). -/
def insertByFst (p : ℚ × ℚ) : List (ℚ × ℚ) → List (ℚ × ℚ)
  | [] => [p]
  | q :: t => if q.1 ≤ p.1 then q :: insertByFst p t else p :: q :: t

/-- Sort the `(x, y)` pairs by `x` ascending (`x_sorted`, `y_sorted`). -/
def sortByFst : List (ℚ × ℚ) → List (ℚ × ℚ)
  | [] => []
  | h :: t => insertByFst h (sortByFst t)

/-- Per-window envelope computation (lines 127-138): chunk the sorted pairs
into windows of `max(1, N//100)`, and per window return
`(mean x, min y + slope*mean x - margin, max y + slope*mean x + margin)`. -/
def bandWindows (sp : List (ℚ × ℚ)) (margin : ℚ) : List (ℚ × ℚ × ℚ) :=
  (chunksOf (max 1 (sp.length / 100)) sp).map fun ch =>
    let xMean := qmean (ch.map Prod.fst)
    (xMean,
     qmin (ch.map Prod.snd) + slope * xMean - margin,
     qmax (ch.map Prod.snd) + slope * xMean + margin)

/-- Band extension (lines 145-147): prepend `lower_x` and append `upper_x`
with flat (first/last window) envelope values. -/
def extendBand (lowerX upperX : ℚ) (ws : List (ℚ × ℚ × ℚ)) :
    List ℚ × List ℚ × List ℚ :=
  match ws with
  | [] => ([], [], [])
  | w :: _ =>
    let lows := ws.map fun t => t.2.1
    let highs := ws.map fun t => t.2.2
    (lowerX :: (ws.map fun t => t.1) ++ [upperX],
     w.2.1 :: lows ++ [lows.getLastD 0],
     w.2.2 :: highs ++ [highs.getLastD 0])

/-- `np.interp` over breakpoints given as `(xp, fp)` pairs: clamp outside the
breakpoint range, piecewise-linear inside (breakpoints assumed ascending, as
produced by the band construction when `lower_x < min x` and
`upper_x > max x`). -/
def np_interp (t : ℚ) : List (ℚ × ℚ) → ℚ
  | [] => 0
  | [p] => p.2
  | p1 :: p2 :: rest =>
      if t ≤ p1.1 then p1.2
      else if t ≤ p2.1 then p1.2 + (p2.2 - p1.2) * (t - p1.1) / (p2.1 - p1.1)
      else np_interp t (p2 :: rest)

/-- `np.arange(-6, 7)`: the integer vertical tiling offsets. -/
def tileRange : List ℤ := [-6, -5, -4, -3, -2, -1, 0, 1, 2, 3, 4, 5, 6]

/-- Index-aligned triples from the three pooled arrays. -/
def zip3 (a b c : List ℚ) : List (ℚ × ℚ × ℚ) := a.zip (b.zip c)

/-- Vertical tiling (lines 154-157): for each offset `k` replicate every
pooled point at `(x, y + k, c)`, blocks in `tileRange` order. -/
def tiledTriples (x y c : List ℚ) : List (ℚ × ℚ × ℚ) :=
  tileRange.flatMap fun k => (zip3 x y c).map fun t => (t.1, t.2.1 + (k : ℚ), t.2.2)

/-- The `inside_mask` of lines 162-167 applied to one tiled point. -/
def insideBand (xb yl yh : List ℚ) (lowerX upperX : ℚ) (t : ℚ × ℚ × ℚ) : Bool :=
  decide (np_interp t.1 (xb.zip yl) ≤ t.2.1) &&
  decide (t.2.1 ≤ np_interp t.1 (xb.zip yh)) &&
  decide (lowerX ≤ t.1) && decide (t.1 ≤ upperX)

/-- The tiled points classified inside the band (`x_plot`, `y_plot` and the
pre-floor intensities); empty when the pooled data is empty (the source
returns its sentinel before reaching the band code in that case). -/
def inbandTriples (data : List GRecord) (method : String)
    (lowerX upperX : Option ℚ) (margin : ℚ) : List (ℚ × ℚ × ℚ) :=
  let xyc := flattenXYC data method
  if xyc.1.isEmpty then []
  else
    let lx := lowerX.getD (qmin xyc.1)
    let ux := upperX.getD (qmax xyc.1)
    let band := extendBand lx ux (bandWindows (sortByFst (xyc.1.zip xyc.2.1)) margin)
    (tiledTriples xyc.1 xyc.2.1 xyc.2.2).filter
      (insideBand band.1 band.2.1 band.2.2 lx ux)

/-- The in-band intensities, before flooring (the full in-band set). -/
def inbandC (data : List GRecord) (method : String)
    (lowerX upperX : Option ℚ) (margin : ℚ) : List ℚ :=
  (inbandTriples data method lowerX upperX margin).map fun t => t.2.2

/-- The in-band intensities floored at `1.0` (`np.maximum(c, 1.0)` before the
logarithm). -/
def inbandFloored (data : List GRecord) (method : String)
    (lowerX upperX : Option ℚ) (margin : ℚ) : List ℚ :=
  (inbandC data method lowerX upperX margin).map fun q => max q 1

/-- Fancy-indexing `l[idx]` for the index array drawn by `np.random.choice`:
out-of-range indices never occur in a real draw but are skipped here to keep
the function total. -/
def npSelect (idx : List ℕ) (l : List α) : List α :=
  idx.filterMap fun i => l.get? i

/-- The floored in-band intensity sample that `plot_data` feeds to the noise
computation: `none` on the two sentinel early returns (no pooled data / no
in-band points), otherwise the floored in-band intensities, downsampled by the
drawn index list `choice` when `max_points` is truthy and exceeded.  This is
everything `plot_data` does before the transcendental `exp`/`mean`/`log`. -/
def plot_data_samples (data : List GRecord) (method : String)
    (lowerX upperX : Option ℚ) (maxPoints : Option ℕ) (margin : ℚ)
    (choice : List ℕ) : Option (List ℚ) :=
  if (flattenXYC data method).1.isEmpty then none
  else
    let ib := inbandTriples data method lowerX upperX margin
    if ib.isEmpty then none
    else
      let floored := ib.map fun t => max t.2.2 1
      some (match maxPoints with
            | some m => if m ≠ 0 ∧ m < floored.length then npSelect choice floored
                        else floored
            | none => floored)

/-- The observable result of `plot_data`: the `"Noise"` entry and whether a
`"Figure"` was produced (`False` models the sentinel `{"Noise": None,
"Figure": None}` returns). -/
structure PlotResult where
  Noise : Option ℝ
  FigurePresent : Bool

/-- `float(np.exp(np.mean(np.log(...))))` — the geometric mean of a floored
intensity list, over `ℝ`. -/
noncomputable def geoMean (l : List ℚ) : ℝ :=
  Real.exp ((l.map fun q : ℚ => Real.log (q : ℝ)).sum / l.length)

/-- `plot_data` (noise-relevant behaviour): sentinel `{"Noise": None,
"Figure": None}` when there is no pooled data or no in-band point; otherwise a
figure is produced and `Noise` is the geometric mean of the (possibly
downsampled) floored in-band intensities, or `None` if the sample came out
empty (line 182's length guard). -/
noncomputable def plot_data (data : List GRecord) (method : String)
    (lowerX upperX : Option ℚ) (maxPoints : Option ℕ) (margin : ℚ)
    (choice : List ℕ) : PlotResult :=
  match plot_data_samples data method lowerX upperX maxPoints margin choice with
  | none => ⟨none, false⟩
  | some [] => ⟨none, true⟩
  | some (a :: t) => ⟨some (geoMean (a :: t)), true⟩

/-- Concrete dataset for the downsampling analysis: one MS1 record with two
points, `x = [1, 2]`, intensities `[1, 4]`, and KMD values `[0, 0]`; with
`lower_x = 0`, `upper_x = 3`, `band_margin = 0.05` exactly the two original
(offset `k = 0`) points are classified in-band. -/
def c1Data : List GRecord :=
  [{ ms_level := some "1", m_z_array := some [1, 2],
     intensity_array := some [1, 4], kendrick_round := [0, 0] }]

/-- The same two-point dataset with both intensities equal to `1/2` (below the
flooring threshold). -/
def c8Data : List GRecord :=
  [{ ms_level := some "1", m_z_array := some [1, 2],
     intensity_array := some [1/2, 1/2], kendrick_round := [0, 0] }]

/-- The same two-point dataset with both intensities equal to `4`. -/
def c8WitnessData : List GRecord :=
  [{ ms_level := some "1", m_z_array := some [1, 2],
     intensity_array := some [4, 4], kendrick_round := [0, 0] }]

/-- A one-point dataset (`x = 1`) used with the window `[100, 200]`: every
point lies outside `[lower_x, upper_x]`, so nothing is classified in-band. -/
def c3Data : List GRecord :=
  [{ ms_level := some "1", m_z_array := some [1],
     intensity_array := some [5], kendrick_round := [0] }]

end Graph

namespace Parser

/-- Python `str.lower()` (the strings involved are ASCII). -/
def strLower (s : String) : String := String.mk (s.data.map Char.toLower)

/-- One step of Python's substring test: does `pat` occur in the list? -/
def containsSub (pat : List Char) : List Char → Bool
  | [] => pat.isPrefixOf []
  | c :: t => pat.isPrefixOf (c :: t) || containsSub pat t

/-- Python `pat in s` on strings. -/
def strContains (s pat : String) : Bool := containsSub pat.data s.data

mutual
/-- An XML element as seen through `xml.etree.ElementTree`: fully
namespace-expanded tag (`\x7buri\x7dname` or plain `name`), attributes, text
content, children. -/
inductive XmlElem where
  | mk (tag : String) (attrib : List (String × String)) (text : Option String)
       (children : XmlForest)
/-- A list of sibling elements (a separate inductive so that all recursion
over the tree is structural). -/
inductive XmlForest where
  | nil
  | cons (e : XmlElem) (f : XmlForest)
end

/-- The element's expanded tag. -/
def XmlElem.tag : XmlElem → String
  | .mk t _ _ _ => t

/-- The element's attribute list. -/
def XmlElem.attrib : XmlElem → List (String × String)
  | .mk _ a _ _ => a

/-- The element's text content. -/
def XmlElem.text : XmlElem → Option String
  | .mk _ _ t _ => t

/-- The element's children. -/
def XmlElem.children : XmlElem → XmlForest
  | .mk _ _ _ c => c

/-- `elem.get(key)`: attribute lookup. -/
def XmlElem.get (e : XmlElem) (k : String) : Option String :=
  (e.attrib.find? fun p => p.1 == k).map Prod.snd

/-- A forest as a list. -/
def XmlForest.toList : XmlForest → List XmlElem
  | .nil => []
  | .cons e f => e :: XmlForest.toList f

/-- A forest from a list. -/
def XmlForest.ofList : List XmlElem → XmlForest
  | [] => .nil
  | e :: t => .cons e (XmlForest.ofList t)

mutual
/-- All elements strictly below `e`, in document (preorder) order — the node
set traversed by a `.//` path. -/
def XmlElem.descendants : XmlElem → List XmlElem
  | .mk _ _ _ cs => XmlForest.elems cs

/-- Preorder listing of a forest and everything below it. -/
def XmlForest.elems : XmlForest → List XmlElem
  | .nil => []
  | .cons c f => c :: (XmlElem.descendants c ++ XmlForest.elems f)
end

/-- Direct children as a list (relative single-tag paths). -/
def XmlElem.childList (e : XmlElem) : List XmlElem := e.children.toList

/-- `re.match(r"\x7b(.+)\x7d", root.tag)`: if the tag starts with `\x7b` and
a later `\x7d` exists, the namespace URI is everything up to the last `\x7d`
(greedy `.+`, at least one character); otherwise `None`. -/
def extractNsUri (tag : String) : Option String :=
  match tag.data with
  | [] => none
  | c :: rest =>
      if c = Char.ofNat 123 then
        let after := (rest.reverse.takeWhile fun ch => ch ≠ Char.ofNat 125).reverse
        if after.length = rest.length then none
        else
          let uri := rest.take (rest.length - after.length - 1)
          if uri.isEmpty then none else some (String.mk uri)
      else none

/-- The namespace-qualified form `\x7buri\x7dname` of an element name. -/
def qualifiedTag (uri name : String) : String := "\x7b" ++ uri ++ "\x7d" ++ name

/-- Resolve an `ns:name` path step against the namespace mapping
`\x7b"ns": uri\x7d`: with no mapping (`ns is None`), `ElementTree` raises at
path compilation — the `SyntaxError` that `Parser.py` line 126 and
`decode_binary_array` hit on namespace-free documents. -/
def nsTag (ns : Option String) (name : String) : Except String String :=
  match ns with
  | some uri => .ok (qualifiedTag uri name)
  | none => .error "SyntaxError: prefix ns not found in prefix map"

/-- The base64 alphabet character of a sextet. -/
def b64Char (n : ℕ) : Char :=
  if n < 26 then Char.ofNat (65 + n)
  else if n < 52 then Char.ofNat (97 + (n - 26))
  else if n < 62 then Char.ofNat (48 + (n - 52))
  else if n = 62 then '+' else '/'

/-- The sextet of a base64 alphabet character (`none` for every other
character, including padding `=` — non-alphabet input is discarded, matching
`base64.b64decode`'s non-strict mode). -/
def b64Val (c : Char) : Option ℕ :=
  if 65 ≤ c.toNat ∧ c.toNat ≤ 90 then some (c.toNat - 65)
  else if 97 ≤ c.toNat ∧ c.toNat ≤ 122 then some (c.toNat - 97 + 26)
  else if 48 ≤ c.toNat ∧ c.toNat ≤ 57 then some (c.toNat - 48 + 52)
  else if c.toNat = 43 then some 62
  else if c.toNat = 47 then some 63
  else none

/-- Bytes to base64 sextets, three bytes to four sextets. -/
def encodeSextets : List ℕ → List ℕ
  | [] => []
  | [a] => [a / 4, a % 4 * 16]
  | [a, b] => [a / 4, a % 4 * 16 + b / 16, b % 16 * 4]
  | a :: b :: c :: rest =>
      a / 4 :: (a % 4 * 16 + b / 16) :: (b % 16 * 4 + c / 64) :: c % 64 ::
        encodeSextets rest

/-- Base64 padding characters for a byte count. -/
def b64PadFor (n : ℕ) : List Char :=
  if n % 3 = 1 then ['=', '=']
  else if n % 3 = 2 then ['=']
  else []

/-- `base64.b64encode` (the spec-side encoder of the round-trip). -/
def b64encodeStr (bytes : List ℕ) : String :=
  String.mk ((encodeSextets bytes).map b64Char ++ b64PadFor bytes.length)

/-- Base64 sextets back to bytes; a leftover of one data character is the
`binascii.Error` Python raises. -/
def decodeSextets : List ℕ → Except String (List ℕ)
  | [] => .ok []
  | [_] => .error "binascii.Error: Invalid base64-encoded string"
  | [s1, s2] => .ok [s1 * 4 + s2 / 16]
  | [s1, s2, s3] => .ok [s1 * 4 + s2 / 16, s2 % 16 * 16 + s3 / 4]
  | s1 :: s2 :: s3 :: s4 :: rest =>
      (decodeSextets rest).map fun bs =>
        (s1 * 4 + s2 / 16) :: (s2 % 16 * 16 + s3 / 4) :: (s3 % 4 * 64 + s4) :: bs

/-- `base64.b64decode` in its default non-strict mode: characters outside the
alphabet (including `=` padding) are discarded, then sextets are recombined;
a leftover of one data character raises. -/
def b64decode (s : String) : Except String (List ℕ) :=
  decodeSextets (s.data.filterMap b64Val)

/-- `np.frombuffer(buf, dtype)`: reinterpret the byte buffer as contiguous
little-endian values of the element width (4 or 8 bytes); a byte length that
is not a multiple of the width raises `ValueError`.  A decoded float is
modelled by its little-endian byte chunk. -/
def np_frombuffer (buf : List ℕ) (width : ℕ) : Except String (List (List ℕ)) :=
  if width = 0 then .error "invalid dtype width"
  else if buf.length % width = 0 then .ok (chunksOf width buf)
  else .error "ValueError: buffer size must be a multiple of element size"

/-- The identity model of `zlib.decompress`, used to instantiate the
`zlib`-parameter on uncompressed documents. -/
def zlibId : List ℕ → Except String (List ℕ) := fun b => .ok b

/-- `decode_binary_array(binary_elem, ns)`: scan the direct `cvParam`
children for precision (`32-bit float` / `64-bit float`, default 64-bit),
`zlib compression`, and the array kind (`m/z array` / `intensity array`,
default `"unknown"`); then base64-decode the `binary` child's text,
conditionally inflate, and reinterpret as floats of the chosen width.
`zlibD` is the explicit model of `zlib.decompress`.  Every failure is an
`Except.error` (the Python exception caught by the caller). -/
def decode_binary_array (zlibD : List ℕ → Except String (List ℕ))
    (binaryElem : XmlElem) (ns : Option String) :
    Except String (String × List (List ℕ)) := do
  let cvTag ← nsTag ns "cvParam"
  let st := (binaryElem.childList.filter fun e => e.tag == cvTag).foldl
    (fun (st : ℕ × Bool × String) cv =>
      let name := strLower ((cv.get "name").getD "")
      let w := if strContains name "32-bit float" then 4 else st.1
      let w := if strContains name "64-bit float" then 8 else w
      let comp := if strContains name "zlib compression" then true else st.2.1
      let an := if strContains name "intensity array" || strContains name "m/z array"
                then (cv.get "name").getD "" else st.2.2
      (w, comp, an))
    (8, false, "unknown")
  let binTag ← nsTag ns "binary"
  match binaryElem.childList.find? fun e => e.tag == binTag with
  | none => .error "AttributeError: NoneType object has no attribute text"
  | some be =>
    match be.text with
    | none => .error "TypeError: a bytes-like object is required, not NoneType"
    | some txt => do
      let decoded ← b64decode txt
      let decoded ← if st.2.1 then zlibD decoded else .ok decoded
      let data ← np_frombuffer decoded st.1
      .ok (st.2.2, data)

/-- A spectrum record as emitted by `parse_mzml_full_spectra`; float arrays
are lists of little-endian byte chunks. -/
structure SpectrumRecord where
  id : Option String
  ms_level : Option String
  base_peak_mz : Option String
  base_peak_intensity : Option String
  m_z_array : Option (List (List ℕ))
  intensity_array : Option (List (List ℕ))
  binary_error : Option String
deriving DecidableEq

/-- `fmt_num_str`: `Decimal`-based plain-decimal normalization.  The numeric
strings in the documents modelled here are already in plain decimal form, on
which the normalization is the identity; the claims only use that it is a
deterministic function of its input. -/
def fmt_num_str : Option String → Option String := fun s => s

/-- Leading digit run. -/
def takeDigits : List Char → List Char
  | [] => []
  | c :: t => if c.isDigit then c :: takeDigits t else []

/-- `re.search(r"(scan=\d+)", s)`: first position where `scan=` is followed
by at least one digit; the match is `scan=` plus the maximal digit run. -/
def findScan : List Char → Option String
  | [] => none
  | 's' :: 'c' :: 'a' :: 'n' :: '=' :: rest =>
      let ds := takeDigits rest
      if ds.isEmpty then findScan ('c' :: 'a' :: 'n' :: '=' :: rest)
      else some (String.mk ('s' :: 'c' :: 'a' :: 'n' :: '=' :: ds))
  | _ :: t => findScan t

/-- The id-munging of lines 98-100: prefer the `scan=<digits>` substring,
else keep the raw id (possibly `None`). -/
def extractScanId (sid : Option String) : Option String :=
  match findScan (sid.getD "").data with
  | some m => some m
  | none => sid

/-- The cvParam scan of lines 102-111 (`.//cvParam` descendants): collect the
`value` attributes of `ms level`, `base peak m/z`, `base peak intensity`;
later occurrences overwrite earlier ones. -/
def scanParams (cvTag : String) (spectrum : XmlElem) :
    Option String × Option String × Option String :=
  (spectrum.descendants.filter fun e => e.tag == cvTag).foldl
    (fun st p =>
      let name := p.get "name"
      let value := p.get "value"
      if name == some "ms level" then (value, st.2.1, st.2.2)
      else if name == some "base peak m/z" then (st.1, value, st.2.2)
      else if name == some "base peak intensity" then (st.1, st.2.1, value)
      else st)
    (none, none, none)

/-- The binary-array loop of lines 123-134 over the `.//binaryDataArray`
descendants with tag `bdaTag`: per array, a decode success assigns by kind
(`m/z` before `intensity`, unknown kinds ignored, later arrays overwrite);
a decode failure only sets `binary_error` (the fields decoded so far are
kept, the failed array stays absent). -/
def arraysFold (zlibD : List ℕ → Except String (List ℕ)) (ns : Option String)
    (bdaTag : String) (spectrum : XmlElem) :
    Option (List (List ℕ)) × Option (List (List ℕ)) × Option String :=
  (spectrum.descendants.filter fun e => e.tag == bdaTag).foldl
    (fun st be =>
      match decode_binary_array zlibD be ns with
      | .ok (name, data) =>
          if strContains (strLower name) "m/z" then (some data, st.2.1, st.2.2)
          else if strContains (strLower name) "intensity" then (st.1, some data, st.2.2)
          else st
      | .error e => (st.1, st.2.1, some e))
    (none, none, none)

/-- The record built for one retained (MS1) spectrum. -/
def buildRecordCore (zlibD : List ℕ → Except String (List ℕ)) (ns : Option String)
    (bdaTag cvTag : String) (spectrum : XmlElem) : SpectrumRecord :=
  let params := scanParams cvTag spectrum
  let arrs := arraysFold zlibD ns bdaTag spectrum
  { id := extractScanId (spectrum.get "id"),
    ms_level := params.1,
    base_peak_mz := fmt_num_str params.2.1,
    base_peak_intensity := fmt_num_str params.2.2,
    m_z_array := arrs.1,
    intensity_array := arrs.2.1,
    binary_error := arrs.2.2 }

/-- Processing of one spectrum node: non-MS1 spectra are skipped before the
binary lookup; for MS1 spectra the `.//ns:binaryDataArray` path is resolved
first (raising on namespace-free documents, line 126) and the record is
built. -/
def processOne (zlibD : List ℕ → Except String (List ℕ)) (ns : Option String)
    (cvTag : String) (spectrum : XmlElem) : Except String (Option SpectrumRecord) :=
  if (scanParams cvTag spectrum).1 = some "1" then
    (nsTag ns "binaryDataArray").map fun bdaTag =>
      some (buildRecordCore zlibD ns bdaTag cvTag spectrum)
  else .ok none

/-- The spectrum loop: records in document order, a raised exception aborts
the whole parse. -/
def parseLoop (zlibD : List ℕ → Except String (List ℕ)) (ns : Option String)
    (cvTag : String) : List XmlElem → Except String (List SpectrumRecord)
  | [] => .ok []
  | s :: rest => do
    let r ← processOne zlibD ns cvTag s
    let rs ← parseLoop zlibD ns cvTag rest
    match r with
    | some rec => .ok (rec :: rs)
    | none => .ok rs

/-- `parse_mzml_full_spectra`: resolve the default namespace from the root
tag; find all spectrum nodes (namespace-qualified if and only if a namespace
was found); keep MS1 spectra with their decoded arrays, in document order. -/
def parse_mzml_full_spectra (zlibD : List ℕ → Except String (List ℕ))
    (root : XmlElem) : Except String (List SpectrumRecord) :=
  let ns := extractNsUri root.tag
  let spectrumTag := match ns with
    | some u => qualifiedTag u "spectrum"
    | none => "spectrum"
  let cvTag := match ns with
    | some u => qualifiedTag u "cvParam"
    | none => "cvParam"
  parseLoop zlibD ns cvTag (root.descendants.filter fun e => e.tag == spectrumTag)

/-- A document root with the given tag and the given spectrum children. -/
def mkRoot (tag : String) (specs : List XmlElem) : XmlElem :=
  .mk tag [] none (XmlForest.ofList specs)

/-- Modelled from the spec (the encoding side of the round-trip in §4.1/§8,
which has no counterpart under `src/`): a `binaryDataArray` node carrying the
controlled-vocabulary parameters for precision and kind, a `zlib compression`
parameter when compressed, and a `binary` child whose text is the base64
encoding of the payload bytes. -/
def mkBinaryDataArray (uri precisionName kindName : String) (compressed : Bool)
    (payload : List ℕ) : XmlElem :=
  .mk (qualifiedTag uri "binaryDataArray") [] none
    (XmlForest.ofList
      ((XmlElem.mk (qualifiedTag uri "cvParam") [("name", precisionName)] none .nil
        :: XmlElem.mk (qualifiedTag uri "cvParam") [("name", kindName)] none .nil
        :: (if compressed then
              [XmlElem.mk (qualifiedTag uri "cvParam")
                [("name", "zlib compression")] none .nil]
            else [])) ++
       [XmlElem.mk (qualifiedTag uri "binary") [] (some (b64encodeStr payload)) .nil]))

/-- A concrete MS1 spectrum node (namespaced): `ms level = 1` and a 64-bit
uncompressed m/z array of one float (little-endian bytes of `1.0`). -/
def c2NsSpec : XmlElem :=
  .mk (qualifiedTag "u" "spectrum")
    [("id", "controllerType=0 controllerNumber=1 scan=1")] none
    (XmlForest.ofList
      [.mk (qualifiedTag "u" "cvParam") [("name", "ms level"), ("value", "1")] none .nil,
       mkBinaryDataArray "u" "64-bit float" "m/z array" false
         [0, 0, 0, 0, 0, 0, 240, 63]])

/-- The structurally identical spectrum with no default namespace: every tag
unqualified, all attributes and payloads equal. -/
def c2PlainSpec : XmlElem :=
  .mk "spectrum" [("id", "controllerType=0 controllerNumber=1 scan=1")] none
    (XmlForest.ofList
      [.mk "cvParam" [("name", "ms level"), ("value", "1")] none .nil,
       .mk "binaryDataArray" [] none
         (XmlForest.ofList
           [.mk "cvParam" [("name", "64-bit float")] none .nil,
            .mk "cvParam" [("name", "m/z array")] none .nil,
            .mk "binary" [] (some (b64encodeStr [0, 0, 0, 0, 0, 0, 240, 63])) .nil])])

/-- The namespaced document. -/
def c2NsDoc : XmlElem := mkRoot (qualifiedTag "u" "mzML") [c2NsSpec]

/-- The namespace-free but otherwise identical document. -/
def c2PlainDoc : XmlElem := mkRoot "mzML" [c2PlainSpec]

/-- Minimal namespaced spectrum with a given id and MS level. -/
def mkSimpleSpectrum (sid lvl : String) : XmlElem :=
  .mk (qualifiedTag "u" "spectrum") [("id", sid)] none
    (XmlForest.ofList
      [.mk (qualifiedTag "u" "cvParam") [("name", "ms level"), ("value", lvl)] none .nil])

/-- The record `mkSimpleSpectrum` parses to (for MS level 1). -/
def mkSimpleRecord (sid : String) : SpectrumRecord :=
  { id := some sid, ms_level := some "1", base_peak_mz := none,
    base_peak_intensity := none, m_z_array := none, intensity_array := none,
    binary_error := none }

/-- An MS1 spectrum with a well-formed m/z array followed by an intensity
array whose base64 payload `"A"` is malformed (one data character). -/
def c7BadSpec : XmlElem :=
  .mk (qualifiedTag "u" "spectrum") [("id", "scan=11")] none
    (XmlForest.ofList
      [.mk (qualifiedTag "u" "cvParam") [("name", "ms level"), ("value", "1")] none .nil,
       mkBinaryDataArray "u" "64-bit float" "m/z array" false
         [1, 2, 3, 4, 5, 6, 7, 8],
       .mk (qualifiedTag "u" "binaryDataArray") [] none
         (XmlForest.ofList
           [.mk (qualifiedTag "u" "cvParam") [("name", "64-bit float")] none .nil,
            .mk (qualifiedTag "u" "cvParam") [("name", "intensity array")] none .nil,
            .mk (qualifiedTag "u" "binary") [] (some "A") .nil])])

end Parser

section KendrickClaims

/-- C4 (amended): for every m/z, the fractional Kendrick defect lies in
`[0, 1)`; the rounded Kendrick defect lies in the closed interval
`[-1/2, 1/2]` — Python's `round` is round-half-to-even, so `-1/2` is attained
whenever the Kendrick mass is an even integer plus one half (and `1/2` at odd
integers plus one half), refuting the claimed `(-1/2, 1/2]`. -/
theorem C4_defect_ranges (mz : ℚ) :
    (0 ≤ Graph.kmd_fractional mz ∧ Graph.kmd_fractional mz < 1) ∧
    (-(1/2) ≤ Graph.kmd_round mz ∧ Graph.kmd_round mz ≤ 1/2) := by
  have h1 := Int.floor_le (Graph.kendrick_mass mz)
  have h2 := Int.lt_floor_add_one (Graph.kendrick_mass mz)
  constructor
  · unfold Graph.kmd_fractional
    constructor <;> linarith
  · unfold Graph.kmd_round Graph.pythonRound
    split_ifs with ha hb hc <;> push_cast <;> constructor <;> linarith

/-- C4 counterexample: at `mz = 14.01565/28` the Kendrick mass is exactly
`1/2`, Python rounds it (half-to-even) to `0`, and the rounded defect is
exactly `-1/2`, which is not in the claimed open-below interval
`(-1/2, 1/2]`. -/
theorem C4_counterexample :
    Graph.kmd_round (1401565/2800000) = -(1/2) ∧
    ¬(-(1/2 : ℚ) < Graph.kmd_round (1401565/2800000)) := by
  have hkm : Graph.kendrick_mass (1401565/2800000) = 1/2 := by
    unfold Graph.kendrick_mass Graph.CH2_NOMINAL_MASS Graph.CH2_EXACT_MASS
    norm_num
  have hround : Graph.pythonRound ((1:ℚ)/2) = 0 := by
    have hfl : ⌊(1/2 : ℚ)⌋ = 0 := by norm_num
    unfold Graph.pythonRound
    rw [hfl]
    norm_num
  have h : Graph.kmd_round (1401565/2800000) = -(1/2) := by
    unfold Graph.kmd_round
    rw [hkm, hround]
    norm_num
  exact ⟨h, by rw [h]; norm_num⟩

/-- C10: the two rounded-KMD variants are congruent modulo 1.  For every mass,
`TranslatedRscript`'s `KMD(m) = round(m) - kendrickMass(m)` and `Graph.py`'s
`kmd_round(m) = round(kendrickMass(m)) - kendrickMass(m)` differ exactly by
the integer `round(m) - round(kendrickMass(m))`, so integer vertical tilings
classify points identically for the two variants. -/
theorem C10_kmd_variants_integer_difference (m : ℚ) :
    TranslatedRscript.KMD m - Graph.kmd_round m
      = ((Graph.pythonRound m - Graph.pythonRound (Graph.kendrick_mass m) : ℤ) : ℚ) := by
  unfold TranslatedRscript.KMD TranslatedRscript.NM TranslatedRscript.KM
    Graph.kmd_round Graph.kendrick_mass Graph.CH2_NOMINAL_MASS Graph.CH2_EXACT_MASS
  push_cast
  ring

/-- C9 counterexample: on a `None` m/z input the Kendrick calculator functions
do not yield `None` — each raises `TypeError` (`None * float` in the first
statement), refuting the claimed `None`-propagation of the raw calculators. -/
theorem C9_counterexample :
    Graph.kendrick_mass_pycall none
        = .error "TypeError: unsupported operand type(s) for *: NoneType and float" ∧
    Graph.kmd_fractional_pycall none
        = .error "TypeError: unsupported operand type(s) for *: NoneType and float" ∧
    Graph.kmd_round_pycall none
        = .error "TypeError: unsupported operand type(s) for *: NoneType and float" :=
  ⟨rfl, rfl, rfl⟩

/-- C9 (amended): missing input is handled by a truthiness guard at the call
site, not inside the calculators: when the full arrays are not both truthy and
`safe_float` of the base-peak m/z is falsy (`None` or `0.0`),
`augment_and_compute` emits the record with empty derived lists — no exception
and no `None` outputs. -/
theorem C9_guarded_fallback (rec : Graph.GRecord)
    (hms : rec.ms_level = some "1")
    (harr : (Graph.optListTruthy rec.m_z_array
              && Graph.optListTruthy rec.intensity_array) = false)
    (hbp : Graph.optRatTruthy (Graph.safe_float rec.base_peak_mz) = false) :
    Graph.augment_and_compute [rec]
      = [{ rec with kendrick_mz := [], kendrick_fraction := [],
                    kendrick_round := [] }] := by
  unfold Graph.augment_and_compute
  have hfilter : List.filter (fun r => r.ms_level == some "1") [rec] = [rec] := by
    simp [List.filter, hms]
  rw [hfilter]
  simp only [List.map, harr, Bool.false_eq_true, if_false]
  cases hb : rec.base_peak_mz with
  | none => simp [Graph.safe_float, hb]
  | some q =>
    simp only [Graph.safe_float, hb, Graph.optRatTruthy, decide_eq_false_iff_not,
      not_not] at hbp
    simp [Graph.safe_float, hb, hbp]

/-- C9 witness: a concrete MS1 record with no arrays and a missing base-peak
m/z satisfies the hypotheses and gets empty Kendrick fields. -/
theorem C9_guarded_fallback_witness :
    Graph.augment_and_compute [{ ms_level := some "1" }]
      = [{ ms_level := some "1", kendrick_mz := [], kendrick_fraction := [],
           kendrick_round := [] }] :=
  C9_guarded_fallback { ms_level := some "1" } rfl rfl rfl

end KendrickClaims

section NoiseHelpers

/-- If the pooled data is empty the in-band set is empty. -/
theorem Graph.inbandTriples_of_flatten_empty
    {data : List Graph.GRecord} {method : String} {lx ux : Option ℚ} {mg : ℚ}
    (h : (Graph.flattenXYC data method).1.isEmpty = true) :
    Graph.inbandTriples data method lx ux mg = [] := by
  unfold Graph.inbandTriples
  simp [h]

/-- The floored in-band list is the in-band triples mapped through
`max (·.2.2) 1`. -/
theorem Graph.inbandFloored_eq_map
    (data : List Graph.GRecord) (method : String) (lx ux : Option ℚ) (mg : ℚ) :
    Graph.inbandFloored data method lx ux mg
      = (Graph.inbandTriples data method lx ux mg).map fun t => max t.2.2 1 := by
  unfold Graph.inbandFloored Graph.inbandC
  rw [List.map_map]
  rfl

/-- When the in-band set is nonempty and the cap is disabled, zero, or at
least the in-band count, `plot_data` reaches the noise computation with the
full floored in-band list, whatever sample was drawn. -/
theorem Graph.samples_eq_full
    (data : List Graph.GRecord) (method : String) (lx ux : Option ℚ)
    (mp : Option ℕ) (mg : ℚ) (choice : List ℕ)
    (hne : Graph.inbandTriples data method lx ux mg ≠ [])
    (hcap : mp = none ∨ ∃ m, mp = some m ∧
      (m = 0 ∨ (Graph.inbandTriples data method lx ux mg).length ≤ m)) :
    Graph.plot_data_samples data method lx ux mp mg choice
      = some (Graph.inbandFloored data method lx ux mg) := by
  have hx : (Graph.flattenXYC data method).1.isEmpty = false := by
    cases h : (Graph.flattenXYC data method).1.isEmpty
    · rfl
    · exact absurd (Graph.inbandTriples_of_flatten_empty h) hne
  have hib : (Graph.inbandTriples data method lx ux mg).isEmpty = false := by
    cases h : Graph.inbandTriples data method lx ux mg with
    | nil => exact absurd h hne
    | cons a t => rfl
  unfold Graph.plot_data_samples
  rw [hx]
  simp only [Bool.false_eq_true, if_false, hib]
  rw [Graph.inbandFloored_eq_map]
  rcases hcap with h | ⟨m, hm, hc⟩
  · subst h; rfl
  · subst hm
    have hcond : ¬(m ≠ 0 ∧
        m < ((Graph.inbandTriples data method lx ux mg).map fun t => max t.2.2 1).length) := by
      rcases hc with h0 | hlen
      · intro hcontra; exact hcontra.1 h0
      · intro hcontra
        rw [List.length_map] at hcontra
        omega
    simp only [hcond, if_false]

/-- Membership in the fancy-indexed selection comes from the base list. -/
theorem Graph.npSelect_mem {idx : List ℕ} {l : List ℚ} {a : ℚ}
    (h : a ∈ Graph.npSelect idx l) : a ∈ l := by
  unfold Graph.npSelect at h
  rcases List.mem_filterMap.1 h with ⟨i, _, hget⟩
  exact List.get?_mem hget

/-- A nonempty valid index draw selects a nonempty sample. -/
theorem Graph.npSelect_ne_nil {idx : List ℕ} {l : List ℚ}
    (hne : idx ≠ []) (hv : ∀ i ∈ idx, i < l.length) :
    Graph.npSelect idx l ≠ [] := by
  cases idx with
  | nil => exact absurd rfl hne
  | cons i rest =>
    have hi : i < l.length := hv i (List.mem_cons_self i rest)
    have hget : l.get? i = some l[i] := by
      rw [List.get?_eq_getElem?, List.getElem?_eq_getElem hi]
    unfold Graph.npSelect
    simp only [List.filterMap_cons, hget]
    simp

/-- The geometric mean of a nonempty constant positive list is the constant. -/
theorem Graph.geoMean_const (l : List ℚ) (v : ℚ) (hl : l ≠ []) (hv : 0 < v)
    (h : ∀ q ∈ l, q = v) : Graph.geoMean l = (v : ℝ) := by
  have hrep : l = List.replicate l.length v := List.eq_replicate_of_mem h
  have hn : (l.length : ℝ) ≠ 0 := by
    have : l.length ≠ 0 := by
      cases l with
      | nil => exact absurd rfl hl
      | cons a t => simp
    exact_mod_cast this
  unfold Graph.geoMean
  conv_lhs => rw [hrep]
  rw [List.map_replicate, List.sum_replicate, List.length_replicate,
    nsmul_eq_mul, mul_comm, mul_div_assoc, div_self hn, mul_one]
  exact Real.exp_log (by exact_mod_cast hv)

end NoiseHelpers

section NoiseHelpers2

/-- A nonempty in-band set forces nonempty pooled data. -/
theorem Graph.flatten_nonempty_of_inband
    (data : List Graph.GRecord) (method : String) (lx ux : Option ℚ) (mg : ℚ)
    (hne : Graph.inbandTriples data method lx ux mg ≠ []) :
    (Graph.flattenXYC data method).1.isEmpty = false := by
  cases h : (Graph.flattenXYC data method).1.isEmpty
  · rfl
  · exact absurd (Graph.inbandTriples_of_flatten_empty h) hne

/-- Closed form of `plot_data_samples` when the in-band set is nonempty. -/
theorem Graph.plot_data_samples_eq
    (data : List Graph.GRecord) (method : String) (lx ux : Option ℚ)
    (mp : Option ℕ) (mg : ℚ) (choice : List ℕ)
    (hne : Graph.inbandTriples data method lx ux mg ≠ []) :
    Graph.plot_data_samples data method lx ux mp mg choice
      = some (match mp with
              | some m =>
                if m ≠ 0 ∧ m < (Graph.inbandFloored data method lx ux mg).length
                then Graph.npSelect choice (Graph.inbandFloored data method lx ux mg)
                else Graph.inbandFloored data method lx ux mg
              | none => Graph.inbandFloored data method lx ux mg) := by
  have hx := Graph.flatten_nonempty_of_inband data method lx ux mg hne
  have hib : (Graph.inbandTriples data method lx ux mg).isEmpty = false := by
    cases h : Graph.inbandTriples data method lx ux mg with
    | nil => exact absurd h hne
    | cons a t => rfl
  unfold Graph.plot_data_samples
  rw [hx]
  simp only [Bool.false_eq_true, if_false, hib]
  rw [Graph.inbandFloored_eq_map]

/-- If the sample list reaching the noise step is a nonempty constant positive
list, the returned noise is that constant. -/
theorem Graph.plot_data_noise_of_samples
    (data : List Graph.GRecord) (method : String) (lx ux : Option ℚ)
    (mp : Option ℕ) (mg : ℚ) (choice : List ℕ) (l : List ℚ) (v : ℚ)
    (hs : Graph.plot_data_samples data method lx ux mp mg choice = some l)
    (hlne : l ≠ []) (hconst : ∀ q ∈ l, q = v) (hv : 0 < v) :
    (Graph.plot_data data method lx ux mp mg choice).Noise = some (v : ℝ) := by
  unfold Graph.plot_data
  rw [hs]
  cases l with
  | nil => exact absurd rfl hlne
  | cons a t =>
    show some (Graph.geoMean (a :: t)) = some (v : ℝ)
    rw [Graph.geoMean_const (a :: t) v (by simp) hv hconst]

end NoiseHelpers2

section NoiseClaims

/-- C3: whenever the noise-classification step selects zero tiled points (in
particular when every point lies outside `[lower_x, upper_x]`), `plot_data`
returns the sentinel result: `Noise` is `None` — never zero or any numeric
fallback — and no figure is produced, the advisory signal distinguishing this
return from every successful one. -/
theorem C3_empty_band_sentinel (data : List Graph.GRecord) (method : String)
    (lx ux : Option ℚ) (mp : Option ℕ) (mg : ℚ) (choice : List ℕ)
    (h : Graph.inbandTriples data method lx ux mg = []) :
    Graph.plot_data data method lx ux mp mg choice
      = ⟨none, false⟩ := by
  unfold Graph.plot_data Graph.plot_data_samples
  cases hx : (Graph.flattenXYC data method).1.isEmpty with
  | false => simp [hx, h]
  | true => simp [hx]

/-- C3 witness: a dataset whose only point has `x = 1` with window
`[100, 200]` classifies nothing in-band and yields the sentinel. -/
theorem C3_witness :
    Graph.inbandTriples Graph.c3Data "round" (some 100) (some 200) (1/20) = [] ∧
    Graph.plot_data Graph.c3Data "round" (some 100) (some 200) (some 100000) (1/20) []
      = ⟨none, false⟩ := by
  have h : Graph.inbandTriples Graph.c3Data "round" (some 100) (some 200) (1/20)
      = [] := by
    norm_num [Graph.c3Data, Graph.inbandTriples, Graph.flattenXYC,
      Graph.optListTruthy, Graph.qmin, Graph.qmax, Graph.qmean, Graph.sortByFst,
      Graph.insertByFst, chunksOf, chunksGo, Graph.bandWindows, Graph.extendBand,
      Graph.np_interp, Graph.tiledTriples, Graph.tileRange, Graph.zip3,
      Graph.insideBand, Graph.slope, List.filter, List.foldl, List.zip,
      List.zipWith, List.flatMap]
  exact ⟨h, C3_empty_band_sentinel Graph.c3Data "round" (some 100) (some 200)
    (some 100000) (1/20) [] h⟩

/-- C1 (amended): the noise estimate is computed from the in-band intensity
sample that survives display downsampling.  It equals the geometric mean of
the complete floored in-band set whenever the cap is disabled (`None`/`0`) or
at least the in-band count — independent of the drawn sample; when the
in-band count exceeds the cap the estimate is computed from the drawn random
subsample and can differ from the full-set value (see the counterexample). -/
theorem C1_noise_from_full_inband_set (data : List Graph.GRecord)
    (method : String) (lx ux : Option ℚ) (mp : Option ℕ) (mg : ℚ)
    (choice : List ℕ)
    (hne : Graph.inbandTriples data method lx ux mg ≠ [])
    (hcap : mp = none ∨ ∃ m, mp = some m ∧
      (m = 0 ∨ (Graph.inbandTriples data method lx ux mg).length ≤ m)) :
    Graph.plot_data data method lx ux mp mg choice
      = ⟨some (Graph.geoMean (Graph.inbandFloored data method lx ux mg)),
         true⟩ := by
  have hs := Graph.samples_eq_full data method lx ux mp mg choice hne hcap
  unfold Graph.plot_data
  rw [hs]
  cases hfl : Graph.inbandFloored data method lx ux mg with
  | nil =>
    rw [Graph.inbandFloored_eq_map] at hfl
    exact absurd (List.map_eq_nil_iff.mp hfl) hne
  | cons a t => rfl

/-- C1 witness: on the two-point dataset with no cap, the noise equals the
geometric mean of the full in-band set. -/
theorem C1_witness :
    Graph.inbandTriples Graph.c1Data "round" (some 0) (some 3) (1/20)
      = [(1, 0, 1), (2, 0, 4)] ∧
    Graph.plot_data Graph.c1Data "round" (some 0) (some 3) none (1/20) []
      = ⟨some (Graph.geoMean
          (Graph.inbandFloored Graph.c1Data "round" (some 0) (some 3) (1/20))),
         true⟩ := by
  have hval : Graph.inbandTriples Graph.c1Data "round" (some 0) (some 3) (1/20)
      = [(1, 0, 1), (2, 0, 4)] := by
    norm_num [Graph.c1Data, Graph.inbandTriples, Graph.flattenXYC,
      Graph.optListTruthy, Graph.qmin, Graph.qmax, Graph.qmean, Graph.sortByFst,
      Graph.insertByFst, chunksOf, chunksGo, Graph.bandWindows, Graph.extendBand,
      Graph.np_interp, Graph.tiledTriples, Graph.tileRange, Graph.zip3,
      Graph.insideBand, Graph.slope, List.filter, List.foldl, List.zip,
      List.zipWith, List.flatMap]
  have hne : Graph.inbandTriples Graph.c1Data "round" (some 0) (some 3) (1/20)
      ≠ [] := by rw [hval]; simp
  exact ⟨hval, C1_noise_from_full_inband_set Graph.c1Data "round" (some 0)
    (some 3) none (1/20) [] hne (Or.inl rfl)⟩

/-- C1 counterexample: on the two-point dataset (in-band floored intensities
`[1, 4]`) with cap `max_points = 1`, the legitimate draw `[0]` makes the
returned noise `exp(ln 1)` — not the geometric mean `exp((ln 1 + ln 4)/2)` of
the complete in-band set — refuting independence from cap and sample: the
code downsamples before computing the noise. -/
theorem C1_counterexample :
    Graph.inbandFloored Graph.c1Data "round" (some 0) (some 3) (1/20)
      = [1, 4] ∧
    (Graph.plot_data Graph.c1Data "round" (some 0) (some 3) (some 1) (1/20)
        [0]).Noise
      ≠ some (Graph.geoMean
          (Graph.inbandFloored Graph.c1Data "round" (some 0) (some 3) (1/20))) := by
  have hfl : Graph.inbandFloored Graph.c1Data "round" (some 0) (some 3) (1/20)
      = [1, 4] := by
    norm_num [Graph.c1Data, Graph.inbandFloored, Graph.inbandC,
      Graph.inbandTriples, Graph.flattenXYC, Graph.optListTruthy, Graph.qmin,
      Graph.qmax, Graph.qmean, Graph.sortByFst, Graph.insertByFst, chunksOf,
      chunksGo, Graph.bandWindows, Graph.extendBand, Graph.np_interp,
      Graph.tiledTriples, Graph.tileRange, Graph.zip3, Graph.insideBand,
      Graph.slope, max_def, List.filter, List.foldl, List.zip, List.zipWith,
      List.flatMap]
  have hs : Graph.plot_data_samples Graph.c1Data "round" (some 0) (some 3)
      (some 1) (1/20) [0] = some [1] := by
    norm_num [Graph.c1Data, Graph.plot_data_samples, Graph.npSelect,
      Graph.inbandTriples, Graph.flattenXYC, Graph.optListTruthy, Graph.qmin,
      Graph.qmax, Graph.qmean, Graph.sortByFst, Graph.insertByFst, chunksOf,
      chunksGo, Graph.bandWindows, Graph.extendBand, Graph.np_interp,
      Graph.tiledTriples, Graph.tileRange, Graph.zip3, Graph.insideBand,
      Graph.slope, max_def, List.filter, List.filterMap, List.get?, List.foldl,
      List.zip, List.zipWith, List.flatMap]
  refine ⟨hfl, ?_⟩
  rw [hfl]
  unfold Graph.plot_data
  rw [hs]
  show some (Graph.geoMean [1]) ≠ some (Graph.geoMean [1, 4])
  intro hEq
  have hEq' : Graph.geoMean [1] = Graph.geoMean [1, 4] := Option.some.inj hEq
  have h1 : Graph.geoMean [1] = Real.exp 0 := by
    unfold Graph.geoMean
    norm_num
  have h2 : Graph.geoMean [1, 4] = Real.exp (Real.log 4 / 2) := by
    unfold Graph.geoMean
    norm_num
  rw [h1, h2, Real.exp_eq_exp] at hEq'
  have h4 : 0 < Real.log 4 := Real.log_pos (by norm_num)
  rw [eq_div_iff (by norm_num : (2:ℝ) ≠ 0)] at hEq'
  linarith

/-- C8 (amended): when every in-band intensity equals the constant `I`, the
returned noise is exactly `max I 1` — equal to `I` when `I ≥ 1`, but `1.0`
when `I < 1`, because intensities are floored at `1.0` before the logarithm;
this holds for every cap and every nonempty valid sample draw. -/
theorem C8_constant_inband_noise (data : List Graph.GRecord) (method : String)
    (lx ux : Option ℚ) (mp : Option ℕ) (mg : ℚ) (choice : List ℕ) (I : ℚ)
    (hne : Graph.inbandC data method lx ux mg ≠ [])
    (hconst : ∀ q ∈ Graph.inbandC data method lx ux mg, q = I)
    (hch : choice ≠ [])
    (hchv : ∀ i ∈ choice, i < (Graph.inbandC data method lx ux mg).length) :
    (Graph.plot_data data method lx ux mp mg choice).Noise
      = some ((max I 1 : ℚ) : ℝ) := by
  have hibne : Graph.inbandTriples data method lx ux mg ≠ [] := by
    intro h
    exact hne (by unfold Graph.inbandC; rw [h]; rfl)
  have hflconst : ∀ q ∈ Graph.inbandFloored data method lx ux mg, q = max I 1 := by
    intro q hq
    unfold Graph.inbandFloored at hq
    rcases List.mem_map.1 hq with ⟨c, hc, rfl⟩
    rw [hconst c hc]
  have hflne : Graph.inbandFloored data method lx ux mg ≠ [] := by
    unfold Graph.inbandFloored
    intro h
    exact hne (List.map_eq_nil_iff.mp h)
  have hfllen : (Graph.inbandFloored data method lx ux mg).length
      = (Graph.inbandC data method lx ux mg).length := by
    unfold Graph.inbandFloored
    exact List.length_map _ _
  have hv : (0 : ℚ) < max I 1 := lt_of_lt_of_le one_pos (le_max_right I 1)
  have hs := Graph.plot_data_samples_eq data method lx ux mp mg choice hibne
  cases mp with
  | none =>
    exact Graph.plot_data_noise_of_samples data method lx ux none mg choice
      (Graph.inbandFloored data method lx ux mg) (max I 1) hs hflne hflconst hv
  | some m =>
    have hs' : Graph.plot_data_samples data method lx ux (some m) mg choice
        = some (if m ≠ 0 ∧ m < (Graph.inbandFloored data method lx ux mg).length
                then Graph.npSelect choice (Graph.inbandFloored data method lx ux mg)
                else Graph.inbandFloored data method lx ux mg) := hs
    by_cases hcond : m ≠ 0 ∧ m < (Graph.inbandFloored data method lx ux mg).length
    · rw [if_pos hcond] at hs'
      refine Graph.plot_data_noise_of_samples data method lx ux (some m) mg choice
        _ (max I 1) hs' ?_ ?_ hv
      · apply Graph.npSelect_ne_nil hch
        intro i hi
        rw [hfllen]
        exact hchv i hi
      · intro q hq
        exact hflconst q (Graph.npSelect_mem hq)
    · rw [if_neg hcond] at hs'
      exact Graph.plot_data_noise_of_samples data method lx ux (some m) mg choice
        (Graph.inbandFloored data method lx ux mg) (max I 1) hs' hflne hflconst hv

end NoiseClaims

section NoiseClaims2

/-- C8 counterexample: on the two-point dataset every in-band intensity equals
`I = 1/2`, yet the returned noise is `1.0` (the flooring at `1.0` replaces
both logs by `ln 1`), not `I` — refuting `NoiseEstimate == I` for constants
below the flooring threshold. -/
theorem C8_counterexample :
    Graph.inbandC Graph.c8Data "round" (some 0) (some 3) (1/20) = [1/2, 1/2] ∧
    (Graph.plot_data Graph.c8Data "round" (some 0) (some 3) none (1/20) []).Noise
      = some (1 : ℝ) ∧ ((1 : ℝ) ≠ ((1/2 : ℚ) : ℝ)) := by
  have hc : Graph.inbandC Graph.c8Data "round" (some 0) (some 3) (1/20)
      = [1/2, 1/2] := by
    norm_num [Graph.c8Data, Graph.inbandC, Graph.inbandTriples, Graph.flattenXYC,
      Graph.optListTruthy, Graph.qmin, Graph.qmax, Graph.qmean, Graph.sortByFst,
      Graph.insertByFst, chunksOf, chunksGo, Graph.bandWindows, Graph.extendBand,
      Graph.np_interp, Graph.tiledTriples, Graph.tileRange, Graph.zip3,
      Graph.insideBand, Graph.slope, List.filter, List.foldl, List.zip,
      List.zipWith, List.flatMap]
  have hs : Graph.plot_data_samples Graph.c8Data "round" (some 0) (some 3)
      none (1/20) [] = some [1, 1] := by
    norm_num [Graph.c8Data, Graph.plot_data_samples, Graph.inbandTriples,
      Graph.flattenXYC, Graph.optListTruthy, Graph.qmin, Graph.qmax, Graph.qmean,
      Graph.sortByFst, Graph.insertByFst, chunksOf, chunksGo, Graph.bandWindows,
      Graph.extendBand, Graph.np_interp, Graph.tiledTriples, Graph.tileRange,
      Graph.zip3, Graph.insideBand, Graph.slope, max_def, List.filter,
      List.foldl, List.zip, List.zipWith, List.flatMap]
  refine ⟨hc, ?_, by norm_num⟩
  unfold Graph.plot_data
  rw [hs]
  show some (Graph.geoMean [1, 1]) = some (1 : ℝ)
  have : Graph.geoMean [1, 1] = Real.exp 0 := by
    unfold Graph.geoMean
    norm_num
  rw [this, Real.exp_zero]

/-- C8 witness: with constant in-band intensity `4` (and even a cap of `1`
with the draw `[0]`), the noise is exactly `max 4 1 = 4`. -/
theorem C8_witness :
    Graph.inbandC Graph.c8WitnessData "round" (some 0) (some 3) (1/20)
      = [4, 4] ∧
    (Graph.plot_data Graph.c8WitnessData "round" (some 0) (some 3) (some 1)
        (1/20) [0]).Noise = some ((max (4:ℚ) 1 : ℚ) : ℝ) ∧
    (max (4:ℚ) 1) = 4 := by
  have hc : Graph.inbandC Graph.c8WitnessData "round" (some 0) (some 3) (1/20)
      = [4, 4] := by
    norm_num [Graph.c8WitnessData, Graph.inbandC, Graph.inbandTriples,
      Graph.flattenXYC, Graph.optListTruthy, Graph.qmin, Graph.qmax, Graph.qmean,
      Graph.sortByFst, Graph.insertByFst, chunksOf, chunksGo, Graph.bandWindows,
      Graph.extendBand, Graph.np_interp, Graph.tiledTriples, Graph.tileRange,
      Graph.zip3, Graph.insideBand, Graph.slope, List.filter, List.foldl,
      List.zip, List.zipWith, List.flatMap]
  refine ⟨hc, ?_, by norm_num⟩
  apply C8_constant_inband_noise Graph.c8WitnessData "round" (some 0) (some 3)
    (some 1) (1/20) [0] 4
  · rw [hc]; simp
  · rw [hc]; intro q hq; simpa using hq
  · simp
  · rw [hc]; intro i hi; simp at hi; subst hi; norm_num

end NoiseClaims2


section ParserHelpers

/-- Filtering the document-order node list of a forest of spectra for the
spectrum tag recovers exactly the forest's roots, provided each root carries
the tag and none of their descendants do. -/
theorem Parser.filter_elems_ofList (tag : String) (specs : List Parser.XmlElem)
    (h1 : ∀ s ∈ specs, s.tag = tag)
    (h2 : ∀ s ∈ specs, ∀ d ∈ s.descendants, d.tag ≠ tag) :
    (Parser.XmlForest.elems (Parser.XmlForest.ofList specs)).filter
      (fun e => e.tag == tag) = specs := by
  induction specs with
  | nil => rfl
  | cons s t ih =>
    show (s :: (s.descendants ++ Parser.XmlForest.elems (Parser.XmlForest.ofList t))).filter
        (fun e => e.tag == tag) = s :: t
    rw [List.filter_cons]
    have hs : (s.tag == tag) = true := by
      simp [h1 s (by simp)]
    rw [hs]
    simp only [if_true]
    rw [List.filter_append]
    have hd : s.descendants.filter (fun e => e.tag == tag) = [] := by
      rw [List.filter_eq_nil_iff]
      intro d hd
      simp [h2 s (by simp) d hd]
    rw [hd, List.nil_append]
    rw [ih (fun x hx => h1 x (by simp [hx])) (fun x hx => h2 x (by simp [hx]))]

/-- With a resolved namespace the spectrum loop never raises: it emits, in
order, one record per MS1 spectrum. -/
theorem Parser.parseLoop_ns (zlibD : List ℕ → Except String (List ℕ))
    (uri cvTag : String) (l : List Parser.XmlElem) :
    Parser.parseLoop zlibD (some uri) cvTag l
      = .ok ((l.filter fun s =>
            decide ((Parser.scanParams cvTag s).1 = some "1")).map
          (Parser.buildRecordCore zlibD (some uri)
            (Parser.qualifiedTag uri "binaryDataArray") cvTag)) := by
  induction l with
  | nil => rfl
  | cons s rest ih =>
    by_cases hms : (Parser.scanParams cvTag s).1 = some "1"
    · have hp : Parser.processOne zlibD (some uri) cvTag s
          = .ok (some (Parser.buildRecordCore zlibD (some uri)
              (Parser.qualifiedTag uri "binaryDataArray") cvTag s)) := by
        simp [Parser.processOne, hms, Parser.nsTag, Except.map]
      have hd : decide ((Parser.scanParams cvTag s).1 = some "1") = true :=
        decide_eq_true hms
      simp only [Parser.parseLoop, hp, ih, List.filter_cons, hd, if_true,
        List.map_cons]
      rfl
    · have hp : Parser.processOne zlibD (some uri) cvTag s = .ok none := by
        simp [Parser.processOne, hms]
      have hd : decide ((Parser.scanParams cvTag s).1 = some "1") = false :=
        decide_eq_false hms
      simp only [Parser.parseLoop, hp, ih, List.filter_cons, hd,
        Bool.false_eq_true, if_false]
      rfl

/-- Full closed form of the extraction on a namespaced document whose spectra
are the children of the root: exactly the MS1 spectra are retained, in
document order, each record a function of its own spectrum node alone. -/
theorem Parser.parse_ns_eq (zlibD : List ℕ → Except String (List ℕ))
    (rootTag uri : String) (specs : List Parser.XmlElem)
    (hroot : Parser.extractNsUri rootTag = some uri)
    (hs1 : ∀ s ∈ specs, s.tag = Parser.qualifiedTag uri "spectrum")
    (hs2 : ∀ s ∈ specs, ∀ d ∈ s.descendants,
      d.tag ≠ Parser.qualifiedTag uri "spectrum") :
    Parser.parse_mzml_full_spectra zlibD (Parser.mkRoot rootTag specs)
      = .ok ((specs.filter fun s =>
            decide ((Parser.scanParams (Parser.qualifiedTag uri "cvParam") s).1
              = some "1")).map
          (Parser.buildRecordCore zlibD (some uri)
            (Parser.qualifiedTag uri "binaryDataArray")
            (Parser.qualifiedTag uri "cvParam"))) := by
  unfold Parser.parse_mzml_full_spectra
  have htag : (Parser.mkRoot rootTag specs).tag = rootTag := rfl
  rw [htag, hroot]
  show Parser.parseLoop zlibD (some uri) (Parser.qualifiedTag uri "cvParam")
      (List.filter (fun e => e.tag == Parser.qualifiedTag uri "spectrum")
        (Parser.XmlForest.elems (Parser.XmlForest.ofList specs)))
    = Except.ok ((specs.filter fun s =>
        decide ((Parser.scanParams (Parser.qualifiedTag uri "cvParam") s).1
          = some "1")).map
      (Parser.buildRecordCore zlibD (some uri)
        (Parser.qualifiedTag uri "binaryDataArray")
        (Parser.qualifiedTag uri "cvParam")))
  rw [Parser.filter_elems_ofList _ _ hs1 hs2]
  exact Parser.parseLoop_ns zlibD uri _ specs

end ParserHelpers

section ParserClaims1

/-- C2 is violated by the code (namespace dependence): on the two structurally
identical documents, the namespaced one parses to one full record, while the
namespace-free one makes `parse_mzml_full_spectra` raise `SyntaxError` at the
`.//ns:binaryDataArray` lookup (whose `ns:` prefix is used even when no
namespace was resolved), instead of producing the identical record. -/
theorem C2_namespace_dependence :
    Parser.parse_mzml_full_spectra Parser.zlibId Parser.c2NsDoc
      = .ok [{ id := some "scan=1", ms_level := some "1", base_peak_mz := none,
               base_peak_intensity := none,
               m_z_array := some [[0, 0, 0, 0, 0, 0, 240, 63]],
               intensity_array := none, binary_error := none }] ∧
    Parser.parse_mzml_full_spectra Parser.zlibId Parser.c2PlainDoc
      = .error "SyntaxError: prefix ns not found in prefix map" :=
  ⟨rfl, rfl⟩

/-- C6: on a namespaced document, extraction retains exactly the spectra whose
`ms level` is `"1"`, dropping all others, and emits their records in document
order — each record computed from its own spectrum node. -/
theorem C6_ms1_filter_order (zlibD : List ℕ → Except String (List ℕ))
    (rootTag uri : String) (specs : List Parser.XmlElem)
    (hroot : Parser.extractNsUri rootTag = some uri)
    (hs1 : ∀ s ∈ specs, s.tag = Parser.qualifiedTag uri "spectrum")
    (hs2 : ∀ s ∈ specs, ∀ d ∈ s.descendants,
      d.tag ≠ Parser.qualifiedTag uri "spectrum") :
    Parser.parse_mzml_full_spectra zlibD (Parser.mkRoot rootTag specs)
      = .ok ((specs.filter fun s =>
            decide ((Parser.scanParams (Parser.qualifiedTag uri "cvParam") s).1
              = some "1")).map
          (Parser.buildRecordCore zlibD (some uri)
            (Parser.qualifiedTag uri "binaryDataArray")
            (Parser.qualifiedTag uri "cvParam"))) :=
  Parser.parse_ns_eq zlibD rootTag uri specs hroot hs1 hs2

/-- C6 witness: spectra with MS levels `["1", "2", "1"]` parse to exactly the
two level-1 records, in original relative order. -/
theorem C6_witness :
    Parser.parse_mzml_full_spectra Parser.zlibId
        (Parser.mkRoot (Parser.qualifiedTag "u" "mzML")
          [Parser.mkSimpleSpectrum "scan=1" "1",
           Parser.mkSimpleSpectrum "scan=2" "2",
           Parser.mkSimpleSpectrum "scan=3" "1"])
      = .ok [Parser.mkSimpleRecord "scan=1", Parser.mkSimpleRecord "scan=3"] := by
  have h := C6_ms1_filter_order Parser.zlibId (Parser.qualifiedTag "u" "mzML") "u"
    [Parser.mkSimpleSpectrum "scan=1" "1",
     Parser.mkSimpleSpectrum "scan=2" "2",
     Parser.mkSimpleSpectrum "scan=3" "1"]
    rfl (by decide) (by decide)
  rw [h]
  rfl

/-- C7: per-spectrum decode failures are non-fatal and local.  On a
namespaced document `pre ++ [s] ++ post` the extraction succeeds and its
output splits as the concatenation of the three independently computed parts,
so corrupting the binary arrays of `s` cannot change the records of `pre` or
`post`, and `s` itself is still emitted (with `binary_error` recorded and the
failed array absent, per `buildRecordCore`/`arraysFold`) whenever it is MS1. -/
theorem C7_decode_failure_nonfatal (zlibD : List ℕ → Except String (List ℕ))
    (rootTag uri : String) (pre post : List Parser.XmlElem) (s : Parser.XmlElem)
    (hroot : Parser.extractNsUri rootTag = some uri)
    (hs1 : ∀ x ∈ pre ++ s :: post, x.tag = Parser.qualifiedTag uri "spectrum")
    (hs2 : ∀ x ∈ pre ++ s :: post, ∀ d ∈ x.descendants,
      d.tag ≠ Parser.qualifiedTag uri "spectrum") :
    Parser.parse_mzml_full_spectra zlibD (Parser.mkRoot rootTag (pre ++ s :: post))
      = .ok (((pre.filter fun x =>
            decide ((Parser.scanParams (Parser.qualifiedTag uri "cvParam") x).1
              = some "1")).map
          (Parser.buildRecordCore zlibD (some uri)
            (Parser.qualifiedTag uri "binaryDataArray")
            (Parser.qualifiedTag uri "cvParam")))
        ++ (([s].filter fun x =>
            decide ((Parser.scanParams (Parser.qualifiedTag uri "cvParam") x).1
              = some "1")).map
          (Parser.buildRecordCore zlibD (some uri)
            (Parser.qualifiedTag uri "binaryDataArray")
            (Parser.qualifiedTag uri "cvParam")))
        ++ ((post.filter fun x =>
            decide ((Parser.scanParams (Parser.qualifiedTag uri "cvParam") x).1
              = some "1")).map
          (Parser.buildRecordCore zlibD (some uri)
            (Parser.qualifiedTag uri "binaryDataArray")
            (Parser.qualifiedTag uri "cvParam")))) := by
  rw [Parser.parse_ns_eq zlibD rootTag uri (pre ++ s :: post) hroot hs1 hs2]
  rw [show pre ++ s :: post = pre ++ [s] ++ post by simp]
  rw [List.filter_append, List.filter_append, List.map_append, List.map_append]

/-- C7 witness: between two intact MS1 spectra, a spectrum with a good m/z
array and a corrupt (malformed base64) intensity array is still emitted, with
the decode error recorded on it, the failed array absent, the good array kept
— and the neighbouring records untouched. -/
theorem C7_witness :
    Parser.parse_mzml_full_spectra Parser.zlibId
        (Parser.mkRoot (Parser.qualifiedTag "u" "mzML")
          [Parser.mkSimpleSpectrum "scan=10" "1", Parser.c7BadSpec,
           Parser.mkSimpleSpectrum "scan=12" "1"])
      = .ok [Parser.mkSimpleRecord "scan=10",
             { id := some "scan=11", ms_level := some "1", base_peak_mz := none,
               base_peak_intensity := none,
               m_z_array := some [[1, 2, 3, 4, 5, 6, 7, 8]],
               intensity_array := none,
               binary_error := some "binascii.Error: Invalid base64-encoded string" },
             Parser.mkSimpleRecord "scan=12"] := by
  have h := C7_decode_failure_nonfatal Parser.zlibId
    (Parser.qualifiedTag "u" "mzML") "u"
    [Parser.mkSimpleSpectrum "scan=10" "1"]
    [Parser.mkSimpleSpectrum "scan=12" "1"]
    Parser.c7BadSpec rfl (by decide) (by decide)
  exact h.trans (by rfl)

end ParserClaims1

section Base64Helpers

/-- Decoding an alphabet character recovers its sextet. -/
theorem Parser.b64Val_b64Char : ∀ n, n < 64 →
    Parser.b64Val (Parser.b64Char n) = some n := by decide

/-- Sextets produced from bytes below 256 are below 64. -/
theorem Parser.encodeSextets_lt : ∀ (bytes : List ℕ), (∀ b ∈ bytes, b < 256) →
    ∀ s ∈ Parser.encodeSextets bytes, s < 64 := by
  intro bytes
  induction bytes using Parser.encodeSextets.induct with
  | case1 => intro _ s hs; simp [Parser.encodeSextets] at hs
  | case2 a =>
    intro h s hs
    have ha : a < 256 := h a (by simp)
    simp [Parser.encodeSextets] at hs
    rcases hs with rfl | rfl <;> omega
  | case3 a b =>
    intro h s hs
    have ha : a < 256 := h a (by simp)
    have hb : b < 256 := h b (by simp)
    simp [Parser.encodeSextets] at hs
    rcases hs with rfl | rfl | rfl <;> omega
  | case4 a b c rest ih =>
    intro h s hs
    have ha : a < 256 := h a (by simp)
    have hb : b < 256 := h b (by simp)
    have hc : c < 256 := h c (by simp)
    simp [Parser.encodeSextets] at hs
    rcases hs with rfl | rfl | rfl | rfl | hmem
    · omega
    · omega
    · omega
    · omega
    · exact ih (fun x hx => h x (by simp [hx])) s hmem

/-- Recombining the sextets of a byte list recovers the bytes. -/
theorem Parser.decode_encode_sextets : ∀ (bytes : List ℕ),
    (∀ b ∈ bytes, b < 256) →
    Parser.decodeSextets (Parser.encodeSextets bytes) = .ok bytes := by
  intro bytes
  induction bytes using Parser.encodeSextets.induct with
  | case1 => intro _; rfl
  | case2 a =>
    intro h
    have ha : a < 256 := h a (by simp)
    simp [Parser.encodeSextets, Parser.decodeSextets]
    omega
  | case3 a b =>
    intro h
    have ha : a < 256 := h a (by simp)
    have hb : b < 256 := h b (by simp)
    simp [Parser.encodeSextets, Parser.decodeSextets]
    constructor <;> omega
  | case4 a b c rest ih =>
    intro h
    have ha : a < 256 := h a (by simp)
    have hb : b < 256 := h b (by simp)
    have hc : c < 256 := h c (by simp)
    simp only [Parser.encodeSextets, Parser.decodeSextets]
    rw [ih (fun x hx => h x (by simp [hx]))]
    simp only [Except.map, Except.ok.injEq, List.cons.injEq]
    refine ⟨?_, ?_, ?_, trivial⟩ <;> omega

/-- Mapping through the alphabet and filtering back is the identity on sextet
lists. -/
theorem Parser.filterMap_map_b64Char (l : List ℕ) (h : ∀ s ∈ l, s < 64) :
    (l.map Parser.b64Char).filterMap Parser.b64Val = l := by
  induction l with
  | nil => rfl
  | cons s t ih =>
    simp only [List.map_cons, List.filterMap_cons,
      Parser.b64Val_b64Char s (h s (by simp))]
    rw [ih (fun x hx => h x (by simp [hx]))]

/-- Padding characters carry no data. -/
theorem Parser.filterMap_pad (n : ℕ) :
    (Parser.b64PadFor n).filterMap Parser.b64Val = [] := by
  unfold Parser.b64PadFor
  split_ifs <;> rfl

/-- Base64 round-trip: decoding the canonical encoding of a byte list
recovers the bytes. -/
theorem Parser.b64decode_encode (bytes : List ℕ) (h : ∀ b ∈ bytes, b < 256) :
    Parser.b64decode (Parser.b64encodeStr bytes) = .ok bytes := by
  unfold Parser.b64decode Parser.b64encodeStr
  rw [show (String.mk ((Parser.encodeSextets bytes).map Parser.b64Char
      ++ Parser.b64PadFor bytes.length)).data
      = (Parser.encodeSextets bytes).map Parser.b64Char
        ++ Parser.b64PadFor bytes.length from rfl]
  rw [List.filterMap_append,
    Parser.filterMap_map_b64Char _ (Parser.encodeSextets_lt bytes h),
    Parser.filterMap_pad, List.append_nil]
  exact Parser.decode_encode_sextets bytes h

/-- Consuming exactly one full chunk of the running width. -/
theorem chunksGo_exact {α : Type} (w : ℕ) (v : List α) : ∀ (k : ℕ) (acc rest : List α),
    v.length = k + 1 →
    chunksGo w (k + 1) acc (v ++ rest)
      = (acc.reverse ++ v) :: chunksGo w w [] rest := by
  induction v with
  | nil => intro k acc rest hv; simp at hv
  | cons a v' ih =>
    intro k acc rest hv
    cases v' with
    | nil =>
      have hk : k = 0 := by simp at hv; omega
      subst hk
      simp [chunksGo]
    | cons b v'' =>
      have hk : k = v''.length + 1 := by simp at hv; omega
      subst hk
      show chunksGo w (v''.length + 1 + 1) acc (a :: ((b :: v'') ++ rest)) = _
      rw [show chunksGo w (v''.length + 1 + 1) acc (a :: ((b :: v'') ++ rest))
          = chunksGo w (v''.length + 1) (a :: acc) ((b :: v'') ++ rest) from by
        simp [chunksGo]]
      rw [ih (v''.length) (a :: acc) rest (by simp)]
      simp

/-- Chunking the flattening of uniform-width rows recovers the rows. -/
theorem chunksOf_flatten {α : Type} (k : ℕ) (vals : List (List α))
    (h : ∀ v ∈ vals, v.length = k + 1) :
    chunksOf (k + 1) vals.flatten = vals := by
  induction vals with
  | nil => rfl
  | cons v t ih =>
    have hv : v.length = k + 1 := h v (by simp)
    show chunksOf (k + 1) (v ++ t.flatten) = v :: t
    unfold chunksOf
    rw [chunksGo_exact (k + 1) v k [] t.flatten hv]
    simp only [List.reverse_nil, List.nil_append]
    rw [show chunksGo (k + 1) (k + 1) ([] : List α) t.flatten
        = chunksOf (k + 1) t.flatten from rfl]
    rw [ih (fun x hx => h x (by simp [hx]))]

/-- The flattening of uniform-width rows has length a multiple of the width. -/
theorem flatten_length_mod {α : Type} (w : ℕ) (vals : List (List α))
    (h : ∀ v ∈ vals, v.length = w) : vals.flatten.length % w = 0 := by
  induction vals with
  | nil => simp
  | cons v t ih =>
    show ((v ++ t.flatten).length) % w = 0
    rw [List.length_append, h v (by simp), Nat.add_mod_left]
    exact ih (fun x hx => h x (by simp [hx]))

end Base64Helpers

section ParserClaims2

/-- C5: decoder round-trip.  Encoding a float array (given by the
little-endian byte chunks of its values, 4 bytes per value for 32-bit floats,
8 for 64-bit) as the concatenated payload, optionally compressing it with any
compressor that the supplied `zlib.decompress` model inverts, base64-encoding
the result into a `binaryDataArray` node with the matching
controlled-vocabulary attributes, and decoding via `decode_binary_array`
reproduces the original chunks bit-for-bit — hence exactly the original
64-bit floats, and for 32-bit floats exactly the declared single-precision
values (in particular within single-precision epsilon of what they encode). -/
theorem C5_decode_roundtrip (zlibD : List ℕ → Except String (List ℕ))
    (vals : List (List ℕ)) (w : ℕ) (hw : w = 4 ∨ w = 8) (compressed : Bool)
    (cbytes : List ℕ)
    (hlen : ∀ v ∈ vals, v.length = w)
    (hbytes : ∀ v ∈ vals, ∀ b ∈ v, b < 256)
    (hcb : ∀ b ∈ cbytes, b < 256)
    (hz : zlibD cbytes = .ok vals.flatten) :
    Parser.decode_binary_array zlibD
      (Parser.mkBinaryDataArray "u"
        (if w = 4 then "32-bit float" else "64-bit float") "m/z array"
        compressed (if compressed then cbytes else vals.flatten))
      (some "u")
      = .ok ("m/z array", vals) := by
  have hflat : ∀ b ∈ vals.flatten, b < 256 := by
    intro b hb
    rcases List.mem_flatten.1 hb with ⟨v, hv, hbv⟩
    exact hbytes v hv b hbv
  rcases hw with h | h <;> subst h
  · have hmod : vals.flatten.length % 4 = 0 := flatten_length_mod 4 vals hlen
    have hchunks : chunksOf 4 vals.flatten = vals := chunksOf_flatten 3 vals hlen
    have hfb : Parser.np_frombuffer vals.flatten 4 = .ok vals := by
      unfold Parser.np_frombuffer
      rw [if_neg (by decide), if_pos hmod, hchunks]
    cases compressed
    · have hstep : Parser.decode_binary_array zlibD
          (Parser.mkBinaryDataArray "u"
            (if 4 = 4 then "32-bit float" else "64-bit float") "m/z array"
            false (if false then cbytes else vals.flatten))
          (some "u")
          = (Parser.b64decode (Parser.b64encodeStr vals.flatten)).bind
              (fun decoded => (Parser.np_frombuffer decoded 4).bind
                (fun data => Except.ok ("m/z array", data))) := rfl
      rw [hstep, Parser.b64decode_encode vals.flatten hflat]
      show (Parser.np_frombuffer vals.flatten 4).bind _ = _
      rw [hfb]
      rfl
    · have hstep : Parser.decode_binary_array zlibD
          (Parser.mkBinaryDataArray "u"
            (if 4 = 4 then "32-bit float" else "64-bit float") "m/z array"
            true (if true then cbytes else vals.flatten))
          (some "u")
          = (Parser.b64decode (Parser.b64encodeStr cbytes)).bind
              (fun decoded => (zlibD decoded).bind
                (fun decoded2 => (Parser.np_frombuffer decoded2 4).bind
                  (fun data => Except.ok ("m/z array", data)))) := rfl
      rw [hstep, Parser.b64decode_encode cbytes hcb]
      show (zlibD cbytes).bind _ = _
      rw [hz]
      show (Parser.np_frombuffer vals.flatten 4).bind _ = _
      rw [hfb]
      rfl
  · have hmod : vals.flatten.length % 8 = 0 := flatten_length_mod 8 vals hlen
    have hchunks : chunksOf 8 vals.flatten = vals := chunksOf_flatten 7 vals hlen
    have hfb : Parser.np_frombuffer vals.flatten 8 = .ok vals := by
      unfold Parser.np_frombuffer
      rw [if_neg (by decide), if_pos hmod, hchunks]
    cases compressed
    · have hstep : Parser.decode_binary_array zlibD
          (Parser.mkBinaryDataArray "u"
            (if 8 = 4 then "32-bit float" else "64-bit float") "m/z array"
            false (if false then cbytes else vals.flatten))
          (some "u")
          = (Parser.b64decode (Parser.b64encodeStr vals.flatten)).bind
              (fun decoded => (Parser.np_frombuffer decoded 8).bind
                (fun data => Except.ok ("m/z array", data))) := rfl
      rw [hstep, Parser.b64decode_encode vals.flatten hflat]
      show (Parser.np_frombuffer vals.flatten 8).bind _ = _
      rw [hfb]
      rfl
    · have hstep : Parser.decode_binary_array zlibD
          (Parser.mkBinaryDataArray "u"
            (if 8 = 4 then "32-bit float" else "64-bit float") "m/z array"
            true (if true then cbytes else vals.flatten))
          (some "u")
          = (Parser.b64decode (Parser.b64encodeStr cbytes)).bind
              (fun decoded => (zlibD decoded).bind
                (fun decoded2 => (Parser.np_frombuffer decoded2 8).bind
                  (fun data => Except.ok ("m/z array", data)))) := rfl
      rw [hstep, Parser.b64decode_encode cbytes hcb]
      show (zlibD cbytes).bind _ = _
      rw [hz]
      show (Parser.np_frombuffer vals.flatten 8).bind _ = _
      rw [hfb]
      rfl

/-- C5 witness: the one-element 64-bit array with bytes of `1.0`, encoded
uncompressed, decodes back bit-for-bit. -/
theorem C5_witness :
    Parser.decode_binary_array Parser.zlibId
      (Parser.mkBinaryDataArray "u" "64-bit float" "m/z array" false
        [0, 0, 0, 0, 0, 0, 240, 63])
      (some "u") = .ok ("m/z array", [[0, 0, 0, 0, 0, 0, 240, 63]]) := by
  have h := C5_decode_roundtrip Parser.zlibId [[0, 0, 0, 0, 0, 0, 240, 63]] 8
    (Or.inr rfl) false ([[0, 0, 0, 0, 0, 0, 240, 63]] : List (List ℕ)).flatten
    (by decide) (by decide) (by decide) rfl
  simpa using h

end ParserClaims2
